import Mathlib

/-!
Verification of the evacuation routing engine of the
smart-evacuation-router repository, shallowly embedded in Lean 4.

The embedding follows the Python sources:
  data_processing.py      (haversine_distance, check_if_in_radius, filter_road_network)
  evacuation_algorithm.py (is_in_disaster_radius, get_disaster_exit_nodes,
                           a_star_evacuation, heuristic)

Modelling conventions:
* numbers are real numbers (the sources use Python floats; numeric claims here
  never hinge on rounding);
* the float value inf is modelled by the top element of WithTop (for g and f
  scores, and the heuristic) or by an absent Option value (for the running
  minimum over exit nodes);
* a networkx graph is a list of nodes with attribute records plus a list of
  undirected edges with attribute records; attribute absence is Option.none;
* raising (KeyError on a missing node or missing coordinate keys) is modelled
  by Except.error; the while loop of the A* search and the path-reconstruction
  loop take a fuel argument, and exhausted fuel (which never happens for the
  concrete runs below) is reported like an exhausted frontier;
* Python set iteration order is unspecified; it is modelled by a deterministic
  first-occurrence order, which only influences tie-breaking that no claim
  depends on.
-/

/-- Attribute record of a road-network node: coordinates plus the OSM tags
inspected by the annotator, and the derived is_water flag (absent until the
annotator sets it). -/
structure NodeData where
  x : Option ℝ := none
  y : Option ℝ := none
  natural : Option String := none
  waterway : Option String := none
  water : Option String := none
  harbour : Option String := none
  dock : Option String := none
  landuse : Option String := none
  is_water : Option Bool := none

instance : Inhabited NodeData := ⟨{}⟩

/-- Attribute record of a road-network edge: length, road class, bridge tag,
the water-related tags inspected by the annotator, and the derived is_water
flag. -/
structure EdgeData where
  length : Option ℝ := none
  highway : Option String := none
  bridge : Option String := none
  waterway : Option String := none
  water : Option String := none
  natural : Option String := none
  is_water : Option Bool := none

instance : Inhabited EdgeData := ⟨{}⟩

/-- A road network: nodes with attributes and undirected edges with
attributes, in iteration order. -/
structure Graph where
  nodes : List (Nat × NodeData)
  edges : List (Nat × Nat × EdgeData)

/-- Lookup of the attribute record of a node (Python G.nodes[n], with none for
a KeyError). -/
def nodeData (G : Graph) (n : Nat) : Option NodeData :=
  (G.nodes.find? (fun p => p.1 == n)).map (fun p => p.2)

/-- Python nodes lookup of the annotated water flag, defaulting to false when
the node or the flag is absent. -/
def nodeIsWater (G : Graph) (n : Nat) : Bool :=
  match nodeData G n with
  | some nd => nd.is_water.getD false
  | none => false

/-- Python G.neighbors(u): the nodes connected to u by an edge, in edge
iteration order. -/
def neighbors (G : Graph) (u : Nat) : List Nat :=
  G.edges.filterMap (fun e =>
    if e.1 = u then some e.2.1 else if e.2.1 = u then some e.1 else none)

/-- Python G.get_edge_data(u, v, default=\x7b\x7d): the attribute record of the
undirected edge between u and v, or the empty record when there is none. -/
def edgeDataD (G : Graph) (u v : Nat) : EdgeData :=
  match G.edges.find? (fun e =>
      (e.1 == u && e.2.1 == v) || (e.1 == v && e.2.1 == u)) with
  | some e => e.2.2
  | none => {}

/-- Python G.edges(u, data=True): attribute records of the edges incident to
u, in edge iteration order. -/
def incidentEdges (G : Graph) (u : Nat) : List EdgeData :=
  G.edges.filterMap (fun e =>
    if e.1 = u ∨ e.2.1 = u then some e.2.2 else none)

/-- Two nodes joined by an edge of the network. -/
def adjacent (G : Graph) (a b : Nat) : Prop :=
  ∃ e ∈ G.edges, (e.1 = a ∧ e.2.1 = b) ∨ (e.1 = b ∧ e.2.1 = a)

/-- Great circle distance in meters between two points in decimal degrees
(haversine formula, Earth radius 6371000 m); data_processing.py lines 28-42. -/
noncomputable def haversine_distance (lat1 lon1 lat2 lon2 : ℝ) : ℝ :=
  let rlat1 := lat1 * (Real.pi / 180)
  let rlon1 := lon1 * (Real.pi / 180)
  let rlat2 := lat2 * (Real.pi / 180)
  let rlon2 := lon2 * (Real.pi / 180)
  let dlon := rlon2 - rlon1
  let dlat := rlat2 - rlat1
  let a := Real.sin (dlat / 2) ^ 2 +
    Real.cos rlat1 * Real.cos rlat2 * Real.sin (dlon / 2) ^ 2
  let c := 2 * Real.arcsin (Real.sqrt a)
  c * 6371000

/-- data_processing.py check_if_in_radius: whether a point lies within the
given radius of the center. -/
noncomputable def check_if_in_radius (point center : ℝ × ℝ) (radius : ℝ) : Bool :=
  if haversine_distance point.1 point.2 center.1 center.2 ≤ radius then true else false

/-- Node obstacle rule of filter_road_network (data_processing.py lines
63-82): water-related natural, waterway or landuse values, or the presence of
a water, harbour or dock tag. -/
def nodeWaterRule (d : NodeData) : Bool :=
  (match d.natural with
   | some s => ["water", "coastline", "wetland", "bay", "beach", "marsh"].contains s
   | none => false) ||
  (match d.waterway with
   | some s => ["river", "canal", "stream", "ditch", "dock", "riverbank"].contains s
   | none => false) ||
  d.water.isSome || d.harbour.isSome || d.dock.isSome ||
  (match d.landuse with
   | some s => ["reservoir", "basin", "water"].contains s
   | none => false)

/-- Bridge test of filter_road_network (data_processing.py line 87): the
bridge tag is present and its value is none of the false sentinels. -/
def isBridgeTag (bridge : Option String) : Bool :=
  match bridge with
  | some b => !(["no", "false", "0"].contains b)
  | none => false

/-- data_processing.py filter_road_network: returns an annotated copy of the
network with is_water set on every node and edge.  The node pass runs first;
the edge pass reads the annotated node flags. -/
def filter_road_network (G : Graph) : Graph :=
  let nodes1 := G.nodes.map (fun p => (p.1, { p.2 with is_water := some (nodeWaterRule p.2) }))
  let G1 : Graph := { nodes := nodes1, edges := G.edges }
  let edges1 := G.edges.map (fun e =>
    let d := e.2.2
    let isBridge := isBridgeTag d.bridge
    let uWater := nodeIsWater G1 e.1
    let vWater := nodeIsWater G1 e.2.1
    let w1 : Bool := (uWater || vWater) && !isBridge
    let w2 : Bool :=
      if (d.waterway.isSome || d.water.isSome || d.natural.isSome) && !isBridge
      then true else w1
    (e.1, e.2.1, { d with is_water := some w2 }))
  { nodes := nodes1, edges := edges1 }

/-- evacuation_algorithm.py is_in_disaster_radius: membership of the node
named by the identifier in the disaster radius.  Looking up a missing node, or
a node without coordinate keys, raises a KeyError in the source, modelled as
an error result. -/
noncomputable def is_in_disaster_radius (G : Graph) (p : Nat) (dis : ℝ × ℝ)
    (radius : ℝ) : Except Unit Bool :=
  match nodeData G p with
  | none => .error ()
  | some nd =>
    match nd.y, nd.x with
    | some y, some x =>
      .ok (if haversine_distance y x dis.1 dis.2 ≤ radius then true else false)
    | _, _ => .error ()

/-- First pass of get_disaster_exit_nodes (evacuation_algorithm.py lines
47-60): nodes with coordinates that are not water, paired with true when
inside the radius and false when inside the 100 m buffer beyond it; all other
nodes are dropped. -/
noncomputable def insideOutside (G : Graph) (dis : ℝ × ℝ) (radius : ℝ) :
    List (Nat × Bool) :=
  G.nodes.filterMap (fun p =>
    match p.2.x, p.2.y with
    | some x, some y =>
      if p.2.is_water.getD false = true then none
      else
        let d := haversine_distance y x dis.1 dis.2
        if d ≤ radius then some (p.1, true)
        else if d ≤ radius + 100 then some (p.1, false)
        else none
    | _, _ => none)

/-- Boundary scan of get_disaster_exit_nodes (lines 62-77): neighbors of
inside nodes that lie in the outside set and are reached by a non-water edge,
with duplicates collapsed (Python builds a set; the embedding keeps a
deterministic order). -/
noncomputable def exitCandidates (G : Graph) (dis : ℝ × ℝ) (radius : ℝ) : List Nat :=
  let cls := insideOutside G dis radius
  let insideNodes := (cls.filter (fun p => p.2 = true)).map (fun p => p.1)
  let outsideNodes := (cls.filter (fun p => p.2 = false)).map (fun p => p.1)
  let boundary := insideNodes.flatMap (fun i =>
    (neighbors G i).filterMap (fun nb =>
      if nb ∈ outsideNodes then
        if (edgeDataD G i nb).is_water.getD false = true then none else some nb
      else none))
  boundary.dedup

/-- The road types granting the 0.5 road score bonus (evacuation_algorithm.py
line 105). -/
def majorRoadTypes : List String :=
  ["motorway", "trunk", "primary", "secondary", "tertiary"]

/-- Score of one exit candidate (evacuation_algorithm.py lines 89-110):
proximity to the disaster border plus a road type bonus taken from the first
incident edge that carries a highway tag.  Candidates always carry
coordinates (the first pass filtered on them); the source would raise
otherwise, and the embedding substitutes 0 at that unreachable point. -/
noncomputable def scoreOf (G : Graph) (dis : ℝ × ℝ) (radius : ℝ) (nid : Nat) : ℝ :=
  let nd := (nodeData G nid).getD default
  let d := haversine_distance (nd.y.getD 0) (nd.x.getD 0) dis.1 dis.2
  let proximity := 1 - (d - radius) / 100
  let highwayType := ((incidentEdges G nid).find? (fun e => e.highway.isSome)).bind
    (fun e => e.highway)
  let roadScore : ℝ :=
    match highwayType with
    | some h => if majorRoadTypes.contains h then 0.5 else 0
    | none => 0
  proximity + roadScore

/-- Scoring loop of get_disaster_exit_nodes (lines 81-112): every candidate
that is not water, paired with its score. -/
noncomputable def exitNodesWithScore (G : Graph) (dis : ℝ × ℝ) (radius : ℝ) :
    List (Nat × ℝ) :=
  (exitCandidates G dis radius).filterMap (fun nid =>
    match nodeData G nid with
    | none => none
    | some nd =>
      if nd.is_water.getD false = true then none
      else some (nid, scoreOf G dis radius nid))

/-- evacuation_algorithm.py get_disaster_exit_nodes: candidates sorted by
descending score (a stable sort, like the Python sort), cut to the best 10,
with the single-candidate fallback when scoring produced nothing. -/
noncomputable def get_disaster_exit_nodes (G : Graph) (dis : ℝ × ℝ) (radius : ℝ) :
    List Nat :=
  let sortedScores := (exitNodesWithScore G dis radius).mergeSort
    (fun a b => decide (b.2 ≤ a.2))
  let exits := (sortedScores.take 10).map (fun p => p.1)
  if exits.isEmpty then
    match exitCandidates G dis radius with
    | [] => []
    | c :: _ => [c]
  else exits

/-- Running minimum of the direct distances to the exit nodes that carry
coordinates (evacuation_algorithm.py lines 180-189); none models the float
inf start value. -/
noncomputable def minExitDistance (G : Graph) (exits : List Nat) (y x : ℝ) :
    Option ℝ :=
  exits.foldl (fun acc e =>
    match nodeData G e with
    | some ed =>
      match ed.x, ed.y with
      | some ex, some ey =>
        let d := haversine_distance y x ey ex
        match acc with
        | none => some d
        | some m => some (min m d)
      | _, _ => acc
    | none => acc) none

/-- The A* heuristic (evacuation_algorithm.py lines 160-198): infinite for
nodes without coordinates or flagged as water, otherwise the minimum exit
distance, inflated by the border-encouragement factor while the node is still
inside the disaster radius.  When no exit distance is available both branches
of the source produce the float inf (the factor 1 + border is at least 1), so
the embedding returns top there. -/
noncomputable def heuristic (G : Graph) (exits : List Nat) (dis : ℝ × ℝ)
    (radius : ℝ) (n : Nat) : WithTop ℝ :=
  match nodeData G n with
  | none => ⊤
  | some nd =>
    match nd.x, nd.y with
    | some x, some y =>
      if nd.is_water.getD false = true then ⊤
      else
        let dDis := haversine_distance y x dis.1 dis.2
        match minExitDistance G exits y x with
        | none => ⊤
        | some m =>
          if dDis ≤ radius then
            ((m * (1 + 1.5 * (radius - dDis) / radius) : ℝ) : WithTop ℝ)
          else ((m : ℝ) : WithTop ℝ)
    | _, _ => ⊤

/-- State of the A* loop: the priority queue contents (priority and node),
the back-pointer map, the g and f score maps, and the mirror set of queued
nodes. -/
structure AState where
  openSet : List (WithTop ℝ × Nat)
  cameFrom : List (Nat × Nat)
  gScore : Nat → WithTop ℝ
  fScore : Nat → WithTop ℝ
  openHash : List Nat

/-- Pop of the priority queue: the entry minimal in the lexicographic order
on (priority, node), as Python heapq compares tuples, together with the
remaining entries. -/
noncomputable def popMin : List (WithTop ℝ × Nat) →
    Option ((WithTop ℝ × Nat) × List (WithTop ℝ × Nat))
  | [] => none
  | x :: xs =>
    match popMin xs with
    | none => some (x, [])
    | some (m, rest) =>
      if x.1 < m.1 ∨ (x.1 = m.1 ∧ x.2 ≤ m.2) then some (x, xs)
      else some (m, x :: rest)

/-- Back-pointer lookup (Python membership and indexing of the came_from
dictionary; the latest binding wins). -/
def cfLookup (cf : List (Nat × Nat)) (n : Nat) : Option Nat :=
  (cf.find? (fun p => p.1 == n)).map (fun p => p.2)

/-- Neighbor expansion (evacuation_algorithm.py lines 219-242): skip water
nodes, compute the tentative g score from the edge length (default 100) and
the water penalty (10000 on water edges), and on improvement record the back
pointer, update both score maps and enqueue the neighbor unless queued. -/
noncomputable def expandNeighbor (G : Graph) (exits : List Nat) (dis : ℝ × ℝ)
    (radius : ℝ) (current : Nat) (st : AState) (nb : Nat) : AState :=
  if nodeIsWater G nb = true then st
  else
    let ed := edgeDataD G current nb
    let len := ed.length.getD 100
    let pen : ℝ := if ed.is_water.getD false = true then 10000 else 1
    let tent : WithTop ℝ := st.gScore current + ((len * pen : ℝ) : WithTop ℝ)
    if tent < st.gScore nb then
      let f := tent + heuristic G exits dis radius nb
      { cameFrom := (nb, current) :: st.cameFrom
        gScore := fun m => if m = nb then tent else st.gScore m
        fScore := fun m => if m = nb then f else st.fScore m
        openSet := if nb ∈ st.openHash then st.openSet else st.openSet ++ [(f, nb)]
        openHash := if nb ∈ st.openHash then st.openHash else nb :: st.openHash }
    else st

/-- Path reconstruction chain (evacuation_algorithm.py lines 210-213): the
nodes visited while following back pointers, newest first, stopping in front
of the first node without a back pointer.  Fuel bounds the walk; a cyclic
pointer chain would make the source loop forever, modelled as none. -/
def reconstructAux : Nat → List (Nat × Nat) → Nat → Option (List Nat)
  | 0, _, _ => none
  | fuel + 1, cf, cur =>
    match cfLookup cf cur with
    | some par => (reconstructAux fuel cf par).map (fun l => cur :: l)
    | none => some []

/-- The A* while loop (evacuation_algorithm.py lines 203-242): pop the best
frontier entry, return the reconstructed path when it is an exit node, and
otherwise expand its road-network neighbors. -/
noncomputable def aStarLoop (G : Graph) (exits : List Nat) (dis : ℝ × ℝ)
    (radius : ℝ) (start : Nat) : Nat → AState → Option (List Nat)
  | 0, _ => none
  | fuel + 1, st =>
    match popMin st.openSet with
    | none => none
    | some (c, rest) =>
      let current := c.2
      let st1 : AState := { st with openSet := rest, openHash := st.openHash.erase current }
      if current ∈ exits then
        (reconstructAux (st.cameFrom.length + 1) st.cameFrom current).map
          (fun l => (l ++ [start]).reverse)
      else
        aStarLoop G exits dis radius start fuel
          ((neighbors G current).foldl (expandNeighbor G exits dis radius current) st1)

/-- Initial A* state (evacuation_algorithm.py lines 149-201): the start node
queued with priority 0, empty back pointers, g zero at the start and infinite
elsewhere, f the start heuristic at the start and infinite elsewhere. -/
noncomputable def initState (G : Graph) (exits : List Nat) (dis : ℝ × ℝ)
    (radius : ℝ) (start : Nat) : AState :=
  { openSet := [((0 : WithTop ℝ), start)]
    cameFrom := []
    gScore := fun n => if n = start then (0 : WithTop ℝ) else ⊤
    fScore := fun n => if n = start then heuristic G exits dis radius start else ⊤
    openHash := [start] }

/-- evacuation_algorithm.py a_star_evacuation: the three early exits (absent
start, start already safe, no exit nodes) followed by the A* search.  The
result shapes are error (a raised KeyError), ok none (the Python None), ok
(some []) (already safe) and ok (some path). -/
noncomputable def a_star_evacuation (G : Graph) (start : Option Nat) (dis : ℝ × ℝ)
    (radius : ℝ) (fuel : Nat) : Except Unit (Option (List Nat)) :=
  match start with
  | none => .ok none
  | some s =>
    match is_in_disaster_radius G s dis radius with
    | .error e => .error e
    | .ok b =>
      if b = false then .ok (some [])
      else
        let exits := get_disaster_exit_nodes G dis radius
        if exits.isEmpty then .ok none
        else .ok (aStarLoop G exits dis radius s fuel (initState G exits dis radius s))


/-- The longitude in decimal degrees whose equatorial arc from the zero
meridian measures m meters. -/
noncomputable def mdeg (m : ℝ) : ℝ := m * 180 / (6371000 * Real.pi)

/-- Raw concrete network for the routing runs: a water start node at the
hazard center, an inland node 500 m out, and a node 1050 m out (50 m past a
1000 m radius), joined by a bridge edge and a plain edge. -/
noncomputable def GcxRaw : Graph :=
  { nodes := [
      (1, { x := some (mdeg 0), y := some 0, natural := some "water" }),
      (2, { x := some (mdeg 500), y := some 0 }),
      (3, { x := some (mdeg 1050), y := some 0 })]
    edges := [
      (1, 2, { bridge := some "yes" }),
      (2, 3, {})] }

/-- The annotated form of the concrete routing network. -/
noncomputable def Gcx : Graph := filter_road_network GcxRaw

/-- Concrete network for the exit-scoring run: an inside node, a candidate
node 1050 m out whose first incident edge is residential and whose second is
primary, and a far node. -/
noncomputable def G5Raw : Graph :=
  { nodes := [
      (1, { x := some (mdeg 500), y := some 0 }),
      (2, { x := some (mdeg 5000), y := some 0 }),
      (3, { x := some (mdeg 1050), y := some 0 })]
    edges := [
      (1, 3, { highway := some "residential" }),
      (3, 2, { highway := some "primary" })] }

/-- The annotated form of the exit-scoring network. -/
noncomputable def G5 : Graph := filter_road_network G5Raw

/-- One node 2000 m from the hazard center: a start that is already safe for
a 1000 m radius. -/
noncomputable def GSafe : Graph :=
  { nodes := [(1, { x := some (mdeg 2000), y := some 0, is_water := some false })], edges := [] }

/-- One isolated node at the hazard center: inside the radius with no exit
candidates. -/
noncomputable def GNoExit : Graph :=
  { nodes := [(1, { x := some (mdeg 0), y := some 0, is_water := some false })], edges := [] }

/-- One node exactly 1000 m from the hazard center: on the boundary of a
1000 m radius. -/
noncomputable def GBoundary : Graph :=
  { nodes := [(1, { x := some (mdeg 1000), y := some 0, is_water := some false })], edges := [] }

/-- One node that carries no coordinate keys at all. -/
def Gnc : Graph := { nodes := [(1, { is_water := some false })], edges := [] }

/-- Raw network with a bridge edge joining two water nodes, the edge itself
carrying a water tag. -/
def G2Raw : Graph :=
  { nodes := [(1, { natural := some "water" }), (2, { natural := some "water" })]
    edges := [(1, 2, { bridge := some "yes", waterway := some "river" })] }

/-- The annotated routing network, written out. -/
noncomputable def GcxA : Graph :=
  { nodes := [
      (1, { x := some (mdeg 0), y := some 0, natural := some "water", is_water := some true }),
      (2, { x := some (mdeg 500), y := some 0, is_water := some false }),
      (3, { x := some (mdeg 1050), y := some 0, is_water := some false })]
    edges := [
      (1, 2, { bridge := some "yes", is_water := some false }),
      (2, 3, { is_water := some false })] }

/-- The annotated exit-scoring network, written out. -/
noncomputable def G5A : Graph :=
  { nodes := [
      (1, { x := some (mdeg 500), y := some 0, is_water := some false }),
      (2, { x := some (mdeg 5000), y := some 0, is_water := some false }),
      (3, { x := some (mdeg 1050), y := some 0, is_water := some false })]
    edges := [
      (1, 3, { highway := some "residential", is_water := some false }),
      (3, 2, { highway := some "primary", is_water := some false })] }

/-- Invariant of the A* loop state: every recorded back pointer leads from a
non-water node to a graph neighbor whose own back pointer chain starts, and
every queued node is the start or has a back pointer. -/
def StateInv (G : Graph) (s : Nat) (st : AState) : Prop :=
  (∀ p ∈ st.cameFrom, nodeIsWater G p.1 = false ∧ adjacent G p.2 p.1 ∧
     (p.2 = s ∨ (cfLookup st.cameFrom p.2).isSome)) ∧
  (∀ q ∈ st.openSet, q.2 = s ∨ (cfLookup st.cameFrom q.2).isSome)

/-- Written from the spec wording of the scoring rule: proximity score
1 - (distanceFromCenter - radius) / buffer with buffer = 100 m. -/
noncomputable def proximityScoreSpec (G : Graph) (dis : ℝ × ℝ) (radius : ℝ)
    (nid : Nat) : ℝ :=
  1 - (haversine_distance (((nodeData G nid).getD default).y.getD 0)
    (((nodeData G nid).getD default).x.getD 0) dis.1 dis.2 - radius) / 100

/-- Written from the spec wording of the road bonus: 0.5 whenever any edge
incident to the node carries a major road class. -/
noncomputable def roadScoreSpec (G : Graph) (nid : Nat) : ℝ :=
  if (incidentEdges G nid).any
    (fun e => e.highway.elim false (fun h => majorRoadTypes.contains h))
  then 0.5 else 0

/-- The road bonus as the source computes it: decided by the first incident
edge that carries a highway tag, in edge iteration order. -/
noncomputable def roadScoreFirstSpec (G : Graph) (nid : Nat) : ℝ :=
  match ((incidentEdges G nid).find? (fun e => e.highway.isSome)).bind
    (fun e => e.highway) with
  | some h => if majorRoadTypes.contains h then 0.5 else 0
  | none => 0

/-- Written from the spec wording of the edge cost: edge length (default 100)
times the obstacle penalty (10000 on obstacle edges, 1 otherwise). -/
noncomputable def edgeCostSpec (G : Graph) (u v : Nat) : ℝ :=
  ((edgeDataD G u v).length.getD 100) *
    (if (edgeDataD G u v).is_water.getD false = true then 10000 else 1)

/-- A node entry with the annotation field cleared. -/
def stripNodeAnnot (p : Nat × NodeData) : Nat × NodeData :=
  (p.1, { p.2 with is_water := none })

/-- An edge entry with the annotation field cleared. -/
def stripEdgeAnnot (e : Nat × Nat × EdgeData) : Nat × Nat × EdgeData :=
  (e.1, e.2.1, { e.2.2 with is_water := none })

/-- The initial A* state of the concrete run, used to exercise the edge-cost
update. -/
noncomputable def stW : AState := initState GcxA [3] (0, mdeg 0) 1000 1

/-- A state whose g scores are all zero, so no update can improve them. -/
noncomputable def stW2 : AState :=
  { openSet := [], cameFrom := [], gScore := fun _ => 0, fScore := fun _ => ⊤,
    openHash := [] }

/-- Arcsine of the absolute sine inverts on the principal branch. -/
theorem arcsin_abs_sin (θ : ℝ) (h : |θ| ≤ Real.pi / 2) :
    Real.arcsin |Real.sin θ| = |θ| := by
  have hπ : (0:ℝ) < Real.pi := Real.pi_pos
  rcases le_or_lt 0 θ with hpos | hneg
  · have hθle : θ ≤ Real.pi / 2 := le_trans (le_abs_self θ) h
    have hs : 0 ≤ Real.sin θ :=
      Real.sin_nonneg_of_nonneg_of_le_pi hpos (by linarith)
    rw [abs_of_nonneg hs, Real.arcsin_sin (by linarith) hθle, abs_of_nonneg hpos]
  · have habs : |θ| = -θ := abs_of_neg hneg
    have hθle : -θ ≤ Real.pi / 2 := by rw [← habs]; exact h
    have hs : 0 ≤ Real.sin (-θ) :=
      Real.sin_nonneg_of_nonneg_of_le_pi (by linarith) (by linarith)
    have hs2 : Real.sin θ ≤ 0 := by rw [Real.sin_neg] at hs; linarith
    rw [abs_of_nonpos hs2, ← Real.sin_neg,
      Real.arcsin_sin (by linarith) hθle, habs]

/-- On the equator, the haversine distance between the longitudes encoding a
and b meters of arc is exactly the difference of the arcs, as long as the two
points stay within half a great circle of each other. -/
theorem haversine_equator (a b : ℝ) (h : |b - a| ≤ 10000000) :
    haversine_distance 0 (mdeg a) 0 (mdeg b) = |b - a| := by
  have hπ : (0:ℝ) < Real.pi := Real.pi_pos
  have hπ3 : (3:ℝ) < Real.pi := Real.pi_gt_three
  have hdlon : (mdeg b * (Real.pi / 180) - mdeg a * (Real.pi / 180)) / 2
      = (b - a) / 12742000 := by
    unfold mdeg
    field_simp
    ring
  have habs : |(b - a) / 12742000| ≤ Real.pi / 2 := by
    rw [abs_div, abs_of_pos (by norm_num : (0:ℝ) < 12742000)]
    have h1 : |b - a| / 12742000 ≤ 10000000 / 12742000 :=
      div_le_div_of_nonneg_right h (by norm_num)
    linarith
  unfold haversine_distance
  simp only [zero_mul, sub_zero, zero_sub, sub_self, zero_div, Real.sin_zero,
    Real.cos_zero, one_mul, mul_one, zero_add]
  rw [hdlon]
  have hz : (0:ℝ) ^ 2 + Real.sin ((b - a) / 12742000) ^ 2
      = Real.sin ((b - a) / 12742000) ^ 2 := by ring
  rw [hz, Real.sqrt_sq_eq_abs, arcsin_abs_sin _ habs, abs_div,
    abs_of_pos (by norm_num : (0:ℝ) < 12742000)]
  ring

theorem hav00 : haversine_distance 0 (mdeg 0) 0 (mdeg 0) = 0 := by
  rw [haversine_equator 0 0 (by norm_num)]; norm_num

theorem hav500 : haversine_distance 0 (mdeg 500) 0 (mdeg 0) = 500 := by
  rw [haversine_equator 500 0 (by norm_num)]; norm_num

theorem hav1050 : haversine_distance 0 (mdeg 1050) 0 (mdeg 0) = 1050 := by
  rw [haversine_equator 1050 0 (by norm_num)]; norm_num

theorem hav500_1050 : haversine_distance 0 (mdeg 500) 0 (mdeg 1050) = 550 := by
  rw [haversine_equator 500 1050 (by norm_num)]; norm_num

theorem hav1050_1050 : haversine_distance 0 (mdeg 1050) 0 (mdeg 1050) = 0 := by
  rw [haversine_equator 1050 1050 (by norm_num)]; norm_num

theorem Gcx_eq : Gcx = GcxA := by rfl

theorem nodeData_cx1 : nodeData GcxA 1 =
    some { x := some (mdeg 0), y := some 0, natural := some "water", is_water := some true } := by rfl

theorem nodeData_cx2 : nodeData GcxA 2 =
    some { x := some (mdeg 500), y := some 0, is_water := some false } := by rfl

theorem nodeData_cx3 : nodeData GcxA 3 =
    some { x := some (mdeg 1050), y := some 0, is_water := some false } := by rfl

theorem nodeWater_cx1 : nodeIsWater GcxA 1 = true := by rfl

theorem nodeWater_cx2 : nodeIsWater GcxA 2 = false := by rfl

theorem nodeWater_cx3 : nodeIsWater GcxA 3 = false := by rfl

theorem neighbors_cx1 : neighbors GcxA 1 = [2] := by rfl

theorem neighbors_cx2 : neighbors GcxA 2 = [1, 3] := by rfl

theorem edgeD_cx12 : edgeDataD GcxA 1 2 = { bridge := some "yes", is_water := some false } := by rfl

theorem edgeD_cx23 : edgeDataD GcxA 2 3 = { is_water := some false } := by rfl

theorem incident_cx3 : incidentEdges GcxA 3 = [{ is_water := some false }] := by rfl

theorem insideOutside_cxA : insideOutside GcxA (0, mdeg 0) 1000 = [(2, true), (3, false)] := by
  norm_num [GcxA, insideOutside, hav00, hav500, hav1050,
    List.filterMap_cons, List.filterMap_nil]

theorem candidates_cxA : exitCandidates GcxA (0, mdeg 0) 1000 = [3] := by
  simp only [exitCandidates, insideOutside_cxA]
  norm_num [neighbors_cx2, edgeD_cx23, List.filterMap_cons, List.filterMap_nil]

theorem scored_cxA : exitNodesWithScore GcxA (0, mdeg 0) 1000 = [(3, 1/2)] := by
  simp only [exitNodesWithScore, candidates_cxA]
  norm_num [nodeData_cx3, scoreOf, incident_cx3, hav1050,
    List.filterMap_cons, List.filterMap_nil, List.find?, majorRoadTypes]

theorem exits_cxA : get_disaster_exit_nodes GcxA (0, mdeg 0) 1000 = [3] := by
  simp only [get_disaster_exit_nodes, scored_cxA]
  norm_num [List.mergeSort_singleton]

theorem recon_cx : reconstructAux 3 [(3, 2), (2, 1)] 3 = some [3, 2] := by rfl

theorem run_cxA : aStarLoop GcxA [3] (0, mdeg 0) 1000 1 5 (initState GcxA [3] (0, mdeg 0) 1000 1)
    = some [1, 2, 3] := by
  norm_num [aStarLoop, initState, popMin, expandNeighbor, heuristic,
    minExitDistance, nodeData_cx1, nodeData_cx2, nodeData_cx3, nodeWater_cx1,
    nodeWater_cx2, nodeWater_cx3, neighbors_cx1, neighbors_cx2, edgeD_cx12,
    edgeD_cx23, List.erase,
    hav00, hav500, hav1050, hav500_1050, hav1050_1050,
    WithTop.coe_lt_top, lt_top_iff_ne_top, WithTop.add_ne_top, List.foldl,
    recon_cx]

theorem run_cx : a_star_evacuation Gcx (some 1) (0, mdeg 0) 1000 5 = .ok (some [1, 2, 3]) := by
  rw [Gcx_eq]
  norm_num [a_star_evacuation, is_in_disaster_radius, nodeData_cx1, hav00,
    exits_cxA, run_cxA]

theorem hav1000 : haversine_distance 0 (mdeg 1000) 0 (mdeg 0) = 1000 := by
  rw [haversine_equator 1000 0 (by norm_num)]; norm_num

theorem hav2000 : haversine_distance 0 (mdeg 2000) 0 (mdeg 0) = 2000 := by
  rw [haversine_equator 2000 0 (by norm_num)]; norm_num

theorem hav5000 : haversine_distance 0 (mdeg 5000) 0 (mdeg 0) = 5000 := by
  rw [haversine_equator 5000 0 (by norm_num)]; norm_num

theorem G5_eq : G5 = G5A := by rfl

theorem nodeData_g53 : nodeData G5A 3 =
    some { x := some (mdeg 1050), y := some 0, is_water := some false } := by rfl

theorem neighbors_g51 : neighbors G5A 1 = [3] := by rfl

theorem edgeD_g513 : edgeDataD G5A 1 3 =
    { highway := some "residential", is_water := some false } := by rfl

theorem incident_g53 : incidentEdges G5A 3 =
    [{ highway := some "residential", is_water := some false },
     { highway := some "primary", is_water := some false }] := by rfl

theorem insideOutside_g5 : insideOutside G5A (0, mdeg 0) 1000 = [(1, true), (3, false)] := by
  norm_num [G5A, insideOutside, hav500, hav1050, hav5000,
    List.filterMap_cons, List.filterMap_nil]

theorem candidates_g5 : exitCandidates G5A (0, mdeg 0) 1000 = [3] := by
  simp only [exitCandidates, insideOutside_g5]
  norm_num [neighbors_g51, edgeD_g513, List.filterMap_cons, List.filterMap_nil]

theorem scored_g5 : exitNodesWithScore G5A (0, mdeg 0) 1000 = [(3, 1/2)] := by
  simp only [exitNodesWithScore, candidates_g5]
  norm_num [nodeData_g53, scoreOf, incident_g53, hav1050,
    List.filterMap_cons, List.filterMap_nil, List.find?, majorRoadTypes]
  decide

theorem inRadius_safe : is_in_disaster_radius GSafe 1 (0, mdeg 0) 1000 = .ok false := by
  norm_num [is_in_disaster_radius, nodeData, GSafe, List.find?, hav2000]

theorem inRadius_noexit : is_in_disaster_radius GNoExit 1 (0, mdeg 0) 1000 = .ok true := by
  norm_num [is_in_disaster_radius, nodeData, GNoExit, List.find?, hav00]

theorem exits_noexit : get_disaster_exit_nodes GNoExit (0, mdeg 0) 1000 = [] := by
  norm_num [get_disaster_exit_nodes, exitNodesWithScore, exitCandidates,
    insideOutside, GNoExit, neighbors, List.filterMap_cons, List.filterMap_nil,
    hav00, List.mergeSort_nil]

theorem nodeData_b1 : nodeData GBoundary 1 =
    some { x := some (mdeg 1000), y := some 0, is_water := some false } := by rfl

theorem popMin_eq_none {l : List (WithTop ℝ × Nat)} (h : popMin l = none) : l = [] := by
  cases l with
  | nil => rfl
  | cons x xs =>
    rw [popMin] at h
    rcases h1 : popMin xs with _ | m
    · rw [h1] at h; simp at h
    · rw [h1] at h
      rcases m with ⟨m, rest⟩
      by_cases h2 : x.1 < m.1 ∨ (x.1 = m.1 ∧ x.2 ≤ m.2) <;> simp [h2] at h

theorem popMin_mem {l : List (WithTop ℝ × Nat)} {x : WithTop ℝ × Nat}
    {rest : List (WithTop ℝ × Nat)} (h : popMin l = some (x, rest)) :
    x ∈ l ∧ ∀ y ∈ rest, y ∈ l := by
  induction l generalizing x rest with
  | nil => simp [popMin] at h
  | cons a xs ih =>
    rw [popMin] at h
    rcases h1 : popMin xs with _ | m
    · rw [h1] at h
      simp at h
      rcases h with ⟨rfl, rfl⟩
      simp
    · rw [h1] at h
      rcases m with ⟨m, mrest⟩
      have ihm := ih h1
      by_cases h2 : a.1 < m.1 ∨ (a.1 = m.1 ∧ a.2 ≤ m.2)
      · simp [h2] at h
        rcases h with ⟨rfl, rfl⟩
        constructor
        · simp
        · intro y hy; simp [hy]
      · simp [h2] at h
        rcases h with ⟨rfl, rfl⟩
        constructor
        · simp [ihm.1]
        · intro y hy
          rcases List.mem_cons.mp hy with rfl | hy2
          · simp
          · simp [ihm.2 y hy2]

theorem neighbors_adjacent {G : Graph} {u nb : Nat} (h : nb ∈ neighbors G u) :
    adjacent G u nb := by
  rw [neighbors, List.mem_filterMap] at h
  rcases h with ⟨e, he, heq⟩
  by_cases h1 : e.1 = u
  · simp [h1] at heq
    exact ⟨e, he, Or.inl ⟨h1, heq⟩⟩
  · by_cases h2 : e.2.1 = u
    · simp [h1, h2] at heq
      exact ⟨e, he, Or.inr ⟨heq, h2⟩⟩
    · simp [h1, h2] at heq

theorem adjacent_symm {G : Graph} {a b : Nat} (h : adjacent G a b) :
    adjacent G b a := by
  rcases h with ⟨e, he, h1 | h2⟩
  · exact ⟨e, he, Or.inr h1⟩
  · exact ⟨e, he, Or.inl h2⟩

theorem cfLookup_mem {cf : List (Nat × Nat)} {n v : Nat}
    (h : cfLookup cf n = some v) : (n, v) ∈ cf := by
  rw [cfLookup] at h
  rcases h1 : cf.find? (fun p => p.1 == n) with _ | p
  · rw [h1] at h; simp at h
  · rw [h1] at h
    simp at h
    have hmem := List.mem_of_find?_eq_some h1
    have hpred := List.find?_some h1
    simp at hpred
    have : p = (n, v) := by
      rcases p with ⟨p1, p2⟩
      simp at hpred h
      rw [hpred, h]
    rwa [this] at hmem

theorem cfLookup_cons_mono {cf : List (Nat × Nat)} {n : Nat} (kv : Nat × Nat)
    (h : (cfLookup cf n).isSome) : (cfLookup (kv :: cf) n).isSome := by
  cases h1 : kv.1 == n
  · rw [cfLookup, List.find?, h1]
    exact h
  · rw [cfLookup, List.find?, h1]
    simp

theorem cfLookup_cons_self (cf : List (Nat × Nat)) (n v : Nat) :
    cfLookup ((n, v) :: cf) n = some v := by
  rw [cfLookup, List.find?]
  simp

theorem reconstructAux_mem : ∀ (fuel : Nat) (cf : List (Nat × Nat)) (cur : Nat)
    (l : List Nat), reconstructAux fuel cf cur = some l →
    ∀ x ∈ l, (cfLookup cf x).isSome := by
  intro fuel
  induction fuel with
  | zero => intro cf cur l h; simp [reconstructAux] at h
  | succ fuel ih =>
    intro cf cur l h x hx
    rw [reconstructAux] at h
    rcases h1 : cfLookup cf cur with _ | par
    · rw [h1] at h
      simp at h
      subst h
      simp at hx
    · rw [h1] at h
      simp only [Option.map_eq_some'] at h
      rcases h with ⟨l2, hl2, rfl⟩
      rcases List.mem_cons.mp hx with rfl | hx2
      · simp [h1]
      · exact ih cf par l2 hl2 x hx2

theorem reconstructAux_spec : ∀ (fuel : Nat) (cf : List (Nat × Nat)) (cur : Nat)
    (l : List Nat), reconstructAux fuel cf cur = some l →
    (l = [] ∧ cfLookup cf cur = none) ∨
    (l.head? = some cur ∧ List.Chain' (fun a b => cfLookup cf a = some b) l ∧
     ∃ last q, l.getLast? = some last ∧ cfLookup cf last = some q ∧
       cfLookup cf q = none) := by
  intro fuel
  induction fuel with
  | zero => intro cf cur l h; simp [reconstructAux] at h
  | succ fuel ih =>
    intro cf cur l h
    rw [reconstructAux] at h
    rcases h1 : cfLookup cf cur with _ | par
    · rw [h1] at h
      simp at h
      exact Or.inl ⟨h, rfl⟩
    · rw [h1] at h
      simp only [Option.map_eq_some'] at h
      rcases h with ⟨l2, hl2, rfl⟩
      rcases ih cf par l2 hl2 with ⟨rfl, hnone⟩ | ⟨hhead, hchain, last, q, hlast, hlq, hqn⟩
      · refine Or.inr ⟨rfl, ?_, cur, par, rfl, h1, hnone⟩
        simp
      · rcases l2 with _ | ⟨b, t⟩
        · simp at hhead
        · simp at hhead
          refine Or.inr ⟨rfl, ?_, last, q, ?_, hlq, hqn⟩
          · rw [List.chain'_cons']
            constructor
            · intro y hy
              simp at hy
              subst hy
              rw [hhead]
              exact h1
            · exact hchain
          · rw [List.getLast?_cons_cons]
            exact hlast

theorem expand_cases (G : Graph) (ex : List Nat) (dis : ℝ × ℝ) (r : ℝ)
    (current : Nat) (st : AState) (nb : Nat) :
    expandNeighbor G ex dis r current st nb = st ∨
    (nodeIsWater G nb = false ∧
     ∃ t f, expandNeighbor G ex dis r current st nb =
       { cameFrom := (nb, current) :: st.cameFrom,
         gScore := fun m => if m = nb then t else st.gScore m,
         fScore := fun m => if m = nb then f else st.fScore m,
         openSet := if nb ∈ st.openHash then st.openSet else st.openSet ++ [(f, nb)],
         openHash := if nb ∈ st.openHash then st.openHash else nb :: st.openHash }) := by
  simp only [expandNeighbor]
  by_cases h1 : nodeIsWater G nb = true
  · simp [h1]
  · simp only [if_neg h1]
    split <;>
    · split
      · right
        refine ⟨by simpa using h1, _, _, rfl⟩
      · left
        rfl

theorem expand_pres {G : Graph} {ex : List Nat} {dis : ℝ × ℝ} {r : ℝ} {s : Nat}
    {current : Nat} {st : AState} {nb : Nat}
    (hinv : StateInv G s st) (hadj : adjacent G current nb)
    (hc : current = s ∨ (cfLookup st.cameFrom current).isSome) :
    StateInv G s (expandNeighbor G ex dis r current st nb) ∧
    (current = s ∨
      (cfLookup (expandNeighbor G ex dis r current st nb).cameFrom current).isSome) := by
  rcases expand_cases G ex dis r current st nb with heq | ⟨hnw, t, f, heq⟩
  · rw [heq]
    exact ⟨hinv, hc⟩
  · rw [heq]
    have hcur2 : current = s ∨ (cfLookup ((nb, current) :: st.cameFrom) current).isSome := by
      rcases hc with rfl | hsome
      · exact Or.inl rfl
      · exact Or.inr (cfLookup_cons_mono _ hsome)
    constructor
    · constructor
      · intro p hp
        rcases List.mem_cons.mp hp with rfl | hp2
        · exact ⟨hnw, hadj, hcur2⟩
        · rcases hinv.1 p hp2 with ⟨hw, hadj2, hthird⟩
          refine ⟨hw, hadj2, ?_⟩
          rcases hthird with hs2 | hsome2
          · exact Or.inl hs2
          · exact Or.inr (cfLookup_cons_mono _ hsome2)
      · intro q hq
        by_cases hh : nb ∈ st.openHash
        · simp only [if_pos hh] at hq
          rcases hinv.2 q hq with hs2 | hsome2
          · exact Or.inl hs2
          · exact Or.inr (cfLookup_cons_mono _ hsome2)
        · simp only [if_neg hh] at hq
          rcases List.mem_append.mp hq with hq2 | hq3
          · rcases hinv.2 q hq2 with hs2 | hsome2
            · exact Or.inl hs2
            · exact Or.inr (cfLookup_cons_mono _ hsome2)
          · simp at hq3
            subst hq3
            right
            rw [cfLookup_cons_self]
            rfl
    · exact hcur2

theorem foldl_pres {G : Graph} {ex : List Nat} {dis : ℝ × ℝ} {r : ℝ} {s : Nat}
    {current : Nat} :
    ∀ (nbs : List Nat) (st : AState),
    (∀ nb ∈ nbs, adjacent G current nb) →
    StateInv G s st →
    (current = s ∨ (cfLookup st.cameFrom current).isSome) →
    StateInv G s (nbs.foldl (expandNeighbor G ex dis r current) st) := by
  intro nbs
  induction nbs with
  | nil =>
    intro st _ h _
    simpa using h
  | cons a tl ih =>
    intro st hadj hinv hc
    rw [List.foldl_cons]
    have h2 := @expand_pres G ex dis r s current st a hinv (hadj a (by simp)) hc
    exact ih _ (fun nb hnb => hadj nb (by simp [hnb])) h2.1 h2.2

theorem aStarLoop_main {G : Graph} {ex : List Nat} {dis : ℝ × ℝ} {r : ℝ} {s : Nat} :
    ∀ (fuel : Nat) (st : AState) (p : List Nat),
    StateInv G s st →
    aStarLoop G ex dis r s fuel st = some p →
    (∀ n ∈ p, n ≠ s → nodeIsWater G n = false) ∧ List.Chain' (adjacent G) p := by
  intro fuel
  induction fuel with
  | zero =>
    intro st p _ h
    simp [aStarLoop] at h
  | succ fuel ih =>
    intro st p hinv h
    rw [aStarLoop] at h
    rcases hpop : popMin st.openSet with _ | cr
    · rw [hpop] at h
      simp at h
    · rw [hpop] at h
      rcases cr with ⟨c, rest⟩
      simp only [] at h
      have hmem := popMin_mem hpop
      have hcur : c.2 = s ∨ (cfLookup st.cameFrom c.2).isSome := hinv.2 c hmem.1
      by_cases hex : c.2 ∈ ex
      · rw [if_pos hex] at h
        simp only [Option.map_eq_some'] at h
        rcases h with ⟨l, hl, rfl⟩
        constructor
        · intro n hn hns
          simp only [List.mem_reverse, List.mem_append] at hn
          rcases hn with hn | hn
          · have hsome := reconstructAux_mem _ _ _ _ hl n hn
            rcases ho : cfLookup st.cameFrom n with _ | v
            · rw [ho] at hsome
              simp at hsome
            · exact (hinv.1 (n, v) (cfLookup_mem ho)).1
          · simp at hn
            exact absurd hn hns
        · rw [List.chain'_reverse]
          have hchain2 : List.Chain' (adjacent G) (l ++ [s]) := by
            rcases reconstructAux_spec _ _ _ _ hl with ⟨rfl, _⟩ |
              ⟨hhead, hchain, last, q, hlast, hlq, hqn⟩
            · simp
            · rw [List.chain'_append]
              refine ⟨?_, by simp, ?_⟩
              · refine hchain.imp ?_
                intro a b hab
                exact adjacent_symm (hinv.1 (a, b) (cfLookup_mem hab)).2.1
              · intro x hx y hy
                simp at hy
                subst hy
                rw [hlast] at hx
                simp at hx
                subst hx
                have hm := cfLookup_mem hlq
                rcases (hinv.1 (last, q) hm).2.2 with hqs | hq2
                · subst hqs
                  exact adjacent_symm (hinv.1 (last, q) hm).2.1
                · rw [hqn] at hq2
                  simp at hq2
          refine hchain2.imp ?_
          intro a b hab
          exact adjacent_symm hab
      · rw [if_neg hex] at h
        have hinv1 : StateInv G s
            { st with openSet := rest, openHash := st.openHash.erase c.2 } := by
          constructor
          · exact hinv.1
          · intro q hq
            exact hinv.2 q (hmem.2 q hq)
        exact ih _ p
          (foldl_pres _ _ (fun nb hnb => neighbors_adjacent hnb) hinv1 hcur) h

theorem aStarLoop_ne_nil {G : Graph} {ex : List Nat} {dis : ℝ × ℝ} {r : ℝ} {s : Nat} :
    ∀ (fuel : Nat) (st : AState) (p : List Nat),
    aStarLoop G ex dis r s fuel st = some p → p ≠ [] := by
  intro fuel
  induction fuel with
  | zero =>
    intro st p h
    simp [aStarLoop] at h
  | succ fuel ih =>
    intro st p h
    rw [aStarLoop] at h
    rcases hpop : popMin st.openSet with _ | cr
    · rw [hpop] at h
      simp at h
    · rw [hpop] at h
      rcases cr with ⟨c, rest⟩
      simp only [] at h
      by_cases hex : c.2 ∈ ex
      · rw [if_pos hex] at h
        simp only [Option.map_eq_some'] at h
        rcases h with ⟨l, _, rfl⟩
        simp
      · rw [if_neg hex] at h
        exact ih _ p h

theorem initState_inv (G : Graph) (ex : List Nat) (dis : ℝ × ℝ) (r : ℝ) (s : Nat) :
    StateInv G s (initState G ex dis r s) := by
  constructor
  · intro p hp
    simp [initState] at hp
  · intro q hq
    simp [initState] at hq
    subst hq
    exact Or.inl rfl

theorem scoreOf_split (G : Graph) (dis : ℝ × ℝ) (radius : ℝ) (nid : Nat) :
    scoreOf G dis radius nid =
      proximityScoreSpec G dis radius nid + roadScoreFirstSpec G nid := by
  rw [scoreOf, proximityScoreSpec, roadScoreFirstSpec]

theorem a_star_cases (G : Graph) (s : Nat) (dis : ℝ × ℝ) (radius : ℝ)
    (fuel : Nat) (p : List Nat)
    (h : a_star_evacuation G (some s) dis radius fuel = .ok (some p)) :
    p = [] ∨
    aStarLoop G (get_disaster_exit_nodes G dis radius) dis radius s fuel
      (initState G (get_disaster_exit_nodes G dis radius) dis radius s) = some p := by
  rw [a_star_evacuation] at h
  rcases hm : is_in_disaster_radius G s dis radius with e | b
  · rw [hm] at h
    exact absurd h (by simp)
  · rw [hm] at h
    simp only [] at h
    by_cases hb : b = false
    · rw [if_pos hb] at h
      simp at h
      exact Or.inl h
    · rw [if_neg hb] at h
      by_cases he : (get_disaster_exit_nodes G dis radius).isEmpty
      · rw [if_pos he] at h
        simp at h
      · rw [if_neg he] at h
        simp only [Except.ok.injEq] at h
        exact Or.inr h

/-- C1 amended: a non-empty route never contains an obstacle node other than
possibly its start node. -/
theorem route_obstacle_free_except_start (G : Graph) (s : Nat) (dis : ℝ × ℝ)
    (radius : ℝ) (fuel : Nat) (p : List Nat)
    (h : a_star_evacuation G (some s) dis radius fuel = .ok (some p)) :
    ∀ n ∈ p, n ≠ s → nodeIsWater G n = false := by
  rcases a_star_cases G s dis radius fuel p h with rfl | hloop
  · intro n hn
    simp at hn
  · exact (aStarLoop_main fuel _ p (initState_inv G _ dis radius s) hloop).1

/-- C10: every returned route follows edges of the road network. -/
theorem route_follows_edges (G : Graph) (s : Nat) (dis : ℝ × ℝ)
    (radius : ℝ) (fuel : Nat) (p : List Nat)
    (h : a_star_evacuation G (some s) dis radius fuel = .ok (some p)) :
    List.Chain' (adjacent G) p := by
  rcases a_star_cases G s dis radius fuel p h with rfl | hloop
  · simp
  · exact (aStarLoop_main fuel _ p (initState_inv G _ dis radius s) hloop).2

theorem a_star_safe {G : Graph} {s : Nat} {dis : ℝ × ℝ} {radius : ℝ}
    (fuel : Nat) (hm : is_in_disaster_radius G s dis radius = .ok false) :
    a_star_evacuation G (some s) dis radius fuel = .ok (some []) := by
  rw [a_star_evacuation, hm]
  simp

theorem a_star_noexit {G : Graph} {s : Nat} {dis : ℝ × ℝ} {radius : ℝ}
    (fuel : Nat) (hm : is_in_disaster_radius G s dis radius = .ok true)
    (he : get_disaster_exit_nodes G dis radius = []) :
    a_star_evacuation G (some s) dis radius fuel = .ok none := by
  rw [a_star_evacuation, hm]
  simp [he]

theorem a_star_search {G : Graph} {s : Nat} {dis : ℝ × ℝ} {radius : ℝ}
    (fuel : Nat) (hm : is_in_disaster_radius G s dis radius = .ok true)
    (he : get_disaster_exit_nodes G dis radius ≠ []) :
    a_star_evacuation G (some s) dis radius fuel =
      .ok (aStarLoop G (get_disaster_exit_nodes G dis radius) dis radius s fuel
        (initState G (get_disaster_exit_nodes G dis radius) dis radius s)) := by
  rw [a_star_evacuation, hm]
  have he2 : (get_disaster_exit_nodes G dis radius).isEmpty = false := by
    simpa [List.isEmpty_iff] using he
  simp [he2]

/-- C3: the three early exits of the pathfinder, and the search otherwise. -/
theorem route_early_exits (G : Graph) (dis : ℝ × ℝ) (radius : ℝ) (fuel : Nat) :
    a_star_evacuation G none dis radius fuel = .ok none ∧
    (∀ s, is_in_disaster_radius G s dis radius = .ok false →
      a_star_evacuation G (some s) dis radius fuel = .ok (some [])) ∧
    (∀ s, is_in_disaster_radius G s dis radius = .ok true →
      get_disaster_exit_nodes G dis radius = [] →
      a_star_evacuation G (some s) dis radius fuel = .ok none) ∧
    (∀ s, is_in_disaster_radius G s dis radius = .ok true →
      get_disaster_exit_nodes G dis radius ≠ [] →
      a_star_evacuation G (some s) dis radius fuel =
        .ok (aStarLoop G (get_disaster_exit_nodes G dis radius) dis radius s fuel
          (initState G (get_disaster_exit_nodes G dis radius) dis radius s))) :=
  ⟨rfl, fun _ hm => a_star_safe fuel hm, fun _ hm he => a_star_noexit fuel hm he,
    fun _ hm he => a_star_search fuel hm he⟩

/-- C4: routing from a start node that carries no coordinates raises (the
KeyError of is_in_disaster_radius), for every fuel budget. -/
theorem route_missing_coords_raises (fuel : Nat) :
    a_star_evacuation Gnc (some 1) (0, mdeg 0) 1000 fuel = .error () := rfl

/-- C6: the hazard membership test is exactly the inclusive comparison of the
haversine distance with the radius, and a start node exactly on the boundary
is treated as inside, so routing from it never returns the already-safe
result. -/
theorem boundary_is_inside :
    (∀ (point center : ℝ × ℝ) (radius : ℝ),
      (check_if_in_radius point center radius = true ↔
        haversine_distance point.1 point.2 center.1 center.2 ≤ radius)) ∧
    (∀ (G : Graph) (s : Nat) (nd : NodeData) (y x : ℝ) (dis : ℝ × ℝ)
      (radius : ℝ) (fuel : Nat),
      nodeData G s = some nd → nd.y = some y → nd.x = some x →
      haversine_distance y x dis.1 dis.2 = radius →
      is_in_disaster_radius G s dis radius = .ok true ∧
      a_star_evacuation G (some s) dis radius fuel ≠ .ok (some [])) := by
  constructor
  · intro point center radius
    by_cases hd : haversine_distance point.1 point.2 center.1 center.2 ≤ radius
    · simp [check_if_in_radius, hd]
    · simp [check_if_in_radius, hd]
  · intro G s nd y x dis radius fuel hnd hy hx hhav
    have hm : is_in_disaster_radius G s dis radius = .ok true := by
      rw [is_in_disaster_radius, hnd]
      simp only []
      rw [hy, hx]
      simp [hhav]
    refine ⟨hm, ?_⟩
    by_cases he : get_disaster_exit_nodes G dis radius = []
    · rw [a_star_noexit fuel hm he]
      simp
    · rw [a_star_search fuel hm he]
      intro hcontra
      exact aStarLoop_ne_nil fuel _ [] (Except.ok.inj hcontra) rfl

/-- C8: the tentative accumulated cost adds exactly the spec edge cost (length
defaulting to 100, times the 10000 obstacle penalty or 1) to the cost of the
expanded node; a strict improvement stores it, anything else leaves the state
untouched. -/
theorem g_score_edge_cost (G : Graph) (ex : List Nat) (dis : ℝ × ℝ) (r : ℝ)
    (current : Nat) (st : AState) (nb : Nat)
    (hnw : nodeIsWater G nb = false) :
    ((st.gScore current + ((edgeCostSpec G current nb : ℝ) : WithTop ℝ) < st.gScore nb →
      (expandNeighbor G ex dis r current st nb).gScore nb =
        st.gScore current + ((edgeCostSpec G current nb : ℝ) : WithTop ℝ)) ∧
     (¬(st.gScore current + ((edgeCostSpec G current nb : ℝ) : WithTop ℝ) < st.gScore nb) →
      expandNeighbor G ex dis r current st nb = st)) := by
  rw [expandNeighbor, edgeCostSpec]
  simp only [hnw, Bool.false_eq_true, if_false, if_neg]
  constructor
  · intro hlt
    rw [if_pos hlt]
    simp
  · intro hlt
    rw [if_neg hlt]

/-- C9: annotation returns a copy of the network that differs from the input
only in the is_water field, and that field is populated on every node and
edge of the copy. -/
theorem annotate_copy_populates (G : Graph) :
    (filter_road_network G).nodes.map stripNodeAnnot = G.nodes.map stripNodeAnnot ∧
    (filter_road_network G).edges.map stripEdgeAnnot = G.edges.map stripEdgeAnnot ∧
    ((filter_road_network G).nodes.all (fun p => p.2.is_water.isSome)) = true ∧
    ((filter_road_network G).edges.all (fun e => e.2.2.is_water.isSome)) = true := by
  refine ⟨?_, ?_, ?_, ?_⟩
  · rw [filter_road_network]
    simp only [List.map_map]
    exact List.map_congr_left (fun a _ => rfl)
  · rw [filter_road_network]
    simp only [List.map_map]
    exact List.map_congr_left (fun a _ => rfl)
  · rw [filter_road_network]
    simp only [List.all_eq_true]
    intro p hp
    simp only [List.mem_map] at hp
    rcases hp with ⟨q, _, rfl⟩
    rfl
  · rw [filter_road_network]
    simp only [List.all_eq_true]
    intro e he
    simp only [List.mem_map] at he
    rcases he with ⟨q, _, rfl⟩
    rfl

/-- C2: an edge whose bridge tag is present with a value that is not a false
sentinel is annotated is_water = false, whatever its endpoints and its other
tags hold. -/
theorem bridge_edge_never_obstacle (G : Graph) (u v : Nat) (d : EdgeData)
    (b : String) (hmem : (u, v, d) ∈ G.edges) (hb : d.bridge = some b)
    (h1 : b ≠ "no") (h2 : b ≠ "false") (h3 : b ≠ "0") :
    (u, v, { d with is_water := some false }) ∈ (filter_road_network G).edges := by
  rw [filter_road_network]
  simp only []
  refine List.mem_map.mpr ⟨(u, v, d), hmem, ?_⟩
  have hbr : isBridgeTag d.bridge = true := by
    rw [hb, isBridgeTag]
    simp [h1, h2, h3]
  simp [hbr]

theorem scored_entries {G : Graph} {dis : ℝ × ℝ} {radius : ℝ} {pr : Nat × ℝ}
    (h : pr ∈ exitNodesWithScore G dis radius) :
    pr.2 = scoreOf G dis radius pr.1 ∧ nodeIsWater G pr.1 = false := by
  rw [exitNodesWithScore] at h
  simp only [List.mem_filterMap] at h
  rcases h with ⟨nid, hnid, heq⟩
  rcases hnd : nodeData G nid with _ | nd
  · rw [hnd] at heq
    simp at heq
  · rw [hnd] at heq
    simp only [] at heq
    by_cases hw : nd.is_water.getD false = true
    · rw [if_pos hw] at heq
      simp at heq
    · rw [if_neg hw] at heq
      simp only [Option.some.injEq] at heq
      subst heq
      refine ⟨rfl, ?_⟩
      rw [nodeIsWater, hnd]
      simpa using hw

theorem find?_key_nodup {α : Type} : ∀ (l : List (Nat × α)),
    (l.map Prod.fst).Nodup → ∀ (c : Nat) (nd : α), (c, nd) ∈ l →
    l.find? (fun p => p.1 == c) = some (c, nd) := by
  intro l
  induction l with
  | nil => simp
  | cons a tl ih =>
    intro hnodup c nd hmem
    rw [List.map_cons, List.nodup_cons] at hnodup
    rw [List.find?]
    rcases List.mem_cons.mp hmem with rfl | hmem2
    · simp
    · have hc : c ∈ tl.map Prod.fst := List.mem_map.mpr ⟨(c, nd), hmem2, rfl⟩
      have hne : (a.1 == c) = false := by
        simp only [beq_eq_false_iff_ne, ne_eq]
        intro hh
        exact hnodup.1 (hh ▸ hc)
      rw [hne]
      exact ih hnodup.2 c nd hmem2

theorem nodeData_of_mem_nodup {G : Graph} (hnodup : (G.nodes.map Prod.fst).Nodup)
    {c : Nat} {nd : NodeData} (hmem : (c, nd) ∈ G.nodes) :
    nodeData G c = some nd := by
  rw [nodeData, find?_key_nodup G.nodes hnodup c nd hmem]
  rfl

theorem candidates_not_water {G : Graph} {dis : ℝ × ℝ} {radius : ℝ}
    (hnodup : (G.nodes.map Prod.fst).Nodup) {c : Nat}
    (hc : c ∈ exitCandidates G dis radius) : nodeIsWater G c = false := by
  simp only [exitCandidates, List.mem_dedup, List.mem_flatMap] at hc
  rcases hc with ⟨i, hi, hci⟩
  simp only [List.mem_filterMap] at hci
  rcases hci with ⟨nb, hnb, heq⟩
  by_cases h1 : nb ∈ (List.filter (fun p => decide (p.2 = false))
      (insideOutside G dis radius)).map (fun p => p.1)
  · rw [if_pos h1] at heq
    by_cases h2 : (edgeDataD G i nb).is_water.getD false = true
    · rw [if_pos h2] at heq
      simp at heq
    · rw [if_neg h2] at heq
      simp only [Option.some.injEq] at heq
      subst heq
      simp only [List.mem_map, List.mem_filter] at h1
      rcases h1 with ⟨p, ⟨hpmem, hpfalse⟩, rfl⟩
      simp only [insideOutside, List.mem_filterMap] at hpmem
      rcases hpmem with ⟨q, hq, hqeq⟩
      rcases hx : q.2.x with _ | x
      · rw [hx] at hqeq
        simp at hqeq
      · rcases hy : q.2.y with _ | y
        · rw [hx, hy] at hqeq
          simp at hqeq
        · rw [hx, hy] at hqeq
          simp only [] at hqeq
          by_cases hw : q.2.is_water.getD false = true
          · rw [if_pos hw] at hqeq
            simp at hqeq
          · rw [if_neg hw] at hqeq
            by_cases hd1 : haversine_distance y x dis.1 dis.2 ≤ radius
            · rw [if_pos hd1] at hqeq
              simp only [Option.some.injEq] at hqeq
              rw [← hqeq] at hpfalse
              simp at hpfalse
            · rw [if_neg hd1] at hqeq
              by_cases hd2 : haversine_distance y x dis.1 dis.2 ≤ radius + 100
              · rw [if_pos hd2] at hqeq
                simp only [Option.some.injEq] at hqeq
                have hq1 : q.1 = p.1 := by
                  rw [← hqeq]
                have hqnd : (q.1, q.2) ∈ G.nodes := by
                  simpa using hq
                have hdata : nodeData G p.1 = some q.2 := by
                  rw [← hq1]
                  exact nodeData_of_mem_nodup hnodup hqnd
                rw [nodeIsWater, hdata]
                simpa using hw
              · rw [if_neg hd2] at hqeq
                simp at hqeq
  · rw [if_neg h1] at heq
    simp at heq

theorem get_exits_cases (G : Graph) (dis : ℝ × ℝ) (radius : ℝ) :
    get_disaster_exit_nodes G dis radius =
      ((((exitNodesWithScore G dis radius).mergeSort
        (fun a b => decide (b.2 ≤ a.2))).take 10).map (fun p => p.1)) ∨
    (∃ c cs, exitCandidates G dis radius = c :: cs ∧
      get_disaster_exit_nodes G dis radius = [c]) := by
  rw [get_disaster_exit_nodes]
  split
  · rename_i hemp
    split
    · left
      simp only [List.isEmpty_iff] at hemp
      rw [hemp]
    · rename_i c cs hcand
      exact Or.inr ⟨c, cs, hcand, rfl⟩
  · left
    rfl

/-- C7: exit discovery returns at most 10 nodes, none of them an obstacle,
in order of weakly decreasing score; the single-candidate fallback included.
The node identifiers of the network are assumed distinct, as a networkx graph
guarantees. -/
theorem exit_nodes_bounded_sorted_safe (G : Graph) (dis : ℝ × ℝ) (radius : ℝ)
    (hnodup : (G.nodes.map Prod.fst).Nodup) :
    (get_disaster_exit_nodes G dis radius).length ≤ 10 ∧
    ((get_disaster_exit_nodes G dis radius).all (fun n => !(nodeIsWater G n))) = true ∧
    List.Pairwise (fun a b => scoreOf G dis radius b ≤ scoreOf G dis radius a)
      (get_disaster_exit_nodes G dis radius) := by
  rcases get_exits_cases G dis radius with hmain | ⟨c, cs, hcand, hfall⟩
  · rw [hmain]
    have hmemscored : ∀ pr : Nat × ℝ,
        pr ∈ (((exitNodesWithScore G dis radius).mergeSort
          (fun a b => decide (b.2 ≤ a.2))).take 10) →
        pr ∈ exitNodesWithScore G dis radius := by
      intro pr hpr
      have h2 := List.mem_of_mem_take hpr
      exact List.mem_mergeSort.mp h2
    refine ⟨?_, ?_, ?_⟩
    · rw [List.length_map]
      exact List.length_take_le 10 _
    · rw [List.all_eq_true]
      intro n hn
      simp only [List.mem_map] at hn
      rcases hn with ⟨pr, hpr, rfl⟩
      have hw := (scored_entries (hmemscored pr hpr)).2
      simp [hw]
    · rw [List.pairwise_map]
      have hsorted : List.Pairwise (fun a b : Nat × ℝ => decide (b.2 ≤ a.2) = true)
          ((exitNodesWithScore G dis radius).mergeSort (fun a b => decide (b.2 ≤ a.2))) := by
        apply List.sorted_mergeSort
        · intro a b c hab hbc
          simp only [decide_eq_true_eq] at hab hbc ⊢
          exact le_trans hbc hab
        · intro a b
          simp only [Bool.or_eq_true, decide_eq_true_eq]
          exact le_total b.2 a.2
      have htake := hsorted.sublist (List.take_sublist 10 _)
      refine htake.imp_of_mem ?_
      intro a b ha hb hab
      simp only [decide_eq_true_eq] at hab
      rw [← (scored_entries (hmemscored a ha)).1, ← (scored_entries (hmemscored b hb)).1]
      exact hab
  · rw [hfall]
    refine ⟨by simp, ?_, by simp⟩
    have hcmem : c ∈ exitCandidates G dis radius := by
      rw [hcand]
      simp
    have hw := candidates_not_water hnodup hcmem
    simp [hw]

/-- C1 counterexample: the route [1, 2, 3] is returned although its start
node 1 is flagged as an obstacle (a water node reached over a bridge edge). -/
theorem route_contains_obstacle_start :
    a_star_evacuation Gcx (some 1) (0, mdeg 0) 1000 5 = .ok (some [1, 2, 3]) ∧
    nodeIsWater Gcx 1 = true ∧ (1 : Nat) ∈ [1, 2, 3] :=
  ⟨run_cx, by rw [Gcx_eq]; exact nodeWater_cx1, by simp⟩

theorem route_obstacle_free_except_start_witness :
    nodeIsWater Gcx 2 = false ∧ nodeIsWater Gcx 3 = false :=
  ⟨route_obstacle_free_except_start Gcx 1 (0, mdeg 0) 1000 5 [1, 2, 3] run_cx 2
      (by simp) (by decide),
   route_obstacle_free_except_start Gcx 1 (0, mdeg 0) 1000 5 [1, 2, 3] run_cx 3
      (by simp) (by decide)⟩

theorem route_follows_edges_witness : List.Chain' (adjacent Gcx) [1, 2, 3] :=
  route_follows_edges Gcx 1 (0, mdeg 0) 1000 5 [1, 2, 3] run_cx

theorem route_early_exits_witness :
    a_star_evacuation GSafe none (0, mdeg 0) 1000 5 = .ok none ∧
    a_star_evacuation GSafe (some 1) (0, mdeg 0) 1000 5 = .ok (some []) ∧
    a_star_evacuation GNoExit (some 1) (0, mdeg 0) 1000 5 = .ok none :=
  ⟨(route_early_exits GSafe (0, mdeg 0) 1000 5).1,
   (route_early_exits GSafe (0, mdeg 0) 1000 5).2.1 1 inRadius_safe,
   (route_early_exits GNoExit (0, mdeg 0) 1000 5).2.2.1 1 inRadius_noexit exits_noexit⟩

theorem boundary_is_inside_witness :
    check_if_in_radius (0, mdeg 1000) (0, mdeg 0) 1000 = true ∧
    is_in_disaster_radius GBoundary 1 (0, mdeg 0) 1000 = .ok true ∧
    a_star_evacuation GBoundary (some 1) (0, mdeg 0) 1000 5 ≠ .ok (some []) := by
  have h2 := boundary_is_inside.2 GBoundary 1
    { x := some (mdeg 1000), y := some 0, is_water := some false } 0 (mdeg 1000)
    (0, mdeg 0) 1000 5 nodeData_b1 rfl rfl hav1000
  exact ⟨(boundary_is_inside.1 (0, mdeg 1000) (0, mdeg 0) 1000).mpr
    (le_of_eq hav1000), h2.1, h2.2⟩

/-- C5 counterexample: candidate 3 has an incident primary-road edge, so the
claim predicts score 1/2 + 1/2, but the source takes the road bonus from the
first incident edge carrying a highway tag (residential) and returns 1/2. -/
theorem road_bonus_ignores_later_edges :
    exitNodesWithScore G5 (0, mdeg 0) 1000 = [(3, 1/2)] ∧
    roadScoreSpec G5 3 = 1/2 ∧
    proximityScoreSpec G5 (0, mdeg 0) 1000 3 = 1/2 ∧
    ((1 : ℝ)/2 ≠ proximityScoreSpec G5 (0, mdeg 0) 1000 3 + roadScoreSpec G5 3) := by
  have h1 : exitNodesWithScore G5 (0, mdeg 0) 1000 = [(3, 1/2)] := by
    rw [G5_eq]
    exact scored_g5
  have h2 : roadScoreSpec G5 3 = 1/2 := by
    rw [G5_eq, roadScoreSpec, incident_g53]
    norm_num [majorRoadTypes]
  have h3 : proximityScoreSpec G5 (0, mdeg 0) 1000 3 = 1/2 := by
    rw [G5_eq, proximityScoreSpec, nodeData_g53]
    norm_num [hav1050]
  refine ⟨h1, h2, h3, ?_⟩
  rw [h2, h3]
  norm_num

/-- C5 amended: every scored exit entry carries exactly the proximity score
plus the road bonus of the first incident edge with a highway tag. -/
theorem exit_score_formula (G : Graph) (dis : ℝ × ℝ) (radius : ℝ) (nid : Nat)
    (sc : ℝ) (h : (nid, sc) ∈ exitNodesWithScore G dis radius) :
    sc = proximityScoreSpec G dis radius nid + roadScoreFirstSpec G nid := by
  have h2 := (scored_entries h).1
  simpa [scoreOf_split] using h2

theorem exit_score_formula_witness :
    (1 : ℝ)/2 = proximityScoreSpec G5 (0, mdeg 0) 1000 3 + roadScoreFirstSpec G5 3 :=
  exit_score_formula G5 (0, mdeg 0) 1000 3 (1/2)
    (by rw [G5_eq, scored_g5]; simp)

theorem bridge_edge_never_obstacle_witness :
    (1, 2, ({ bridge := some "yes", waterway := some "river", is_water := some false } : EdgeData))
      ∈ (filter_road_network G2Raw).edges :=
  bridge_edge_never_obstacle G2Raw 1 2
    { bridge := some "yes", waterway := some "river" } "yes"
    (List.mem_cons_self _ _) rfl (by decide) (by decide) (by decide)

theorem exit_nodes_bounded_sorted_safe_witness :
    (get_disaster_exit_nodes Gcx (0, mdeg 0) 1000).length ≤ 10 ∧
    ((get_disaster_exit_nodes Gcx (0, mdeg 0) 1000).all
      (fun n => !(nodeIsWater Gcx n))) = true ∧
    List.Pairwise (fun a b => scoreOf Gcx (0, mdeg 0) 1000 b ≤ scoreOf Gcx (0, mdeg 0) 1000 a)
      (get_disaster_exit_nodes Gcx (0, mdeg 0) 1000) :=
  exit_nodes_bounded_sorted_safe Gcx (0, mdeg 0) 1000 (by rw [Gcx_eq]; decide)

theorem g_score_edge_cost_witness :
    (expandNeighbor GcxA [3] (0, mdeg 0) 1000 1 stW 2).gScore 2 =
      stW.gScore 1 + ((edgeCostSpec GcxA 1 2 : ℝ) : WithTop ℝ) ∧
    expandNeighbor GcxA [3] (0, mdeg 0) 1000 1 stW2 2 = stW2 := by
  have h3 : edgeCostSpec GcxA 1 2 = 100 := by
    rw [edgeCostSpec, edgeD_cx12]
    norm_num
  constructor
  · refine (g_score_edge_cost GcxA [3] (0, mdeg 0) 1000 1 stW 2 nodeWater_cx2).1 ?_
    have h1 : stW.gScore 1 = 0 := by simp [stW, initState]
    have h2 : stW.gScore 2 = ⊤ := by simp [stW, initState]
    rw [h1, h2, h3]
    simp [lt_top_iff_ne_top, WithTop.add_ne_top]
  · refine (g_score_edge_cost GcxA [3] (0, mdeg 0) 1000 1 stW2 2 nodeWater_cx2).2 ?_
    have h1 : stW2.gScore 1 = 0 := rfl
    have h2 : stW2.gScore 2 = 0 := rfl
    rw [h1, h2, h3, not_lt, zero_add]
    rw [← WithTop.coe_zero, WithTop.coe_le_coe]
    norm_num
